import Mathlib

/-!
Verification of bibliotecanncm: parameter schedule of the two sketches and the Media Session script

Shallow embedding of `mandala-generator.js`, `ojo-fractal.js` and
`media-session.js`.

Numbers are rationals: every finite JavaScript number is a rational, and the
arithmetic of the sketches (`+`, `*`, `/`, `%`, `floor`) is taken exactly.
The values produced by the drawing library that are not arithmetic
(`sin`, `noise`, `Math.random`, the pointer distance `dist(...)`, `millis()`)
are inputs of the model.
-/

namespace P5

/-- The library call `map(n, start1, stop1, start2, stop2)` with its fifth
argument `withinBounds` left out, as both sketches call it: a plain affine
re-mapping, with no clamping to the target range. -/
def map (n start1 stop1 start2 stop2 : ℚ) : ℚ :=
  (n - start1) / (stop1 - start1) * (stop2 - start2) + start2

/-- The library call `constrain(n, low, high)`: `max(min(n, high), low)`. -/
def constrain {α : Type} [LinearOrder α] (n low high : α) : α :=
  max (min n high) low

/-- The library call `floor(n)`, which is `Math.floor`. -/
def floor (n : ℚ) : ℤ := Int.floor n

/-- The library call `lerp(start, stop, amt)`. -/
def lerp (start stop amt : ℚ) : ℚ := amt * (stop - start) + start

/-- Truncation toward zero, the quotient used by the JavaScript `%`. -/
def trunc (x : ℚ) : ℤ := if 0 ≤ x then Int.floor x else Int.ceil x

/-- The JavaScript remainder `a % b` on numbers: the result has the sign of
the dividend `a`. -/
def jsRem (a b : ℚ) : ℚ := a - b * (trunc (a / b) : ℚ)

/-- The library call `random(max)`, given the draw `u` of the underlying
generator (`0 ≤ u < 1`). -/
def random1 (u max : ℚ) : ℚ := u * max

/-- The library call `random(min, max)` with `min ≤ max`, given the draw `u`
of the underlying generator (`0 ≤ u < 1`). -/
def random2 (u min max : ℚ) : ℚ := u * (max - min) + min

/-- The library functions whose values the model takes as given. -/
structure Lib where
  /-- The value of `sin(x)` (angle mode is irrelevant to the claims). -/
  sin : ℚ → ℚ
  /-- The value of `noise(x)`. -/
  noise : ℚ → ℚ

/-- What the library documents about `sin` and `noise`. -/
def Lib.Valid (L : Lib) : Prop :=
  (∀ x, -1 ≤ L.sin x ∧ L.sin x ≤ 1) ∧ (∀ x, 0 ≤ L.noise x ∧ L.noise x ≤ 1)

/-- The part of the drawing state the claims speak about: the uniform scale
factor of the current transform and the stack `push()` saves it on.
`rotate` and `translate` leave the factor unchanged. -/
structure Gfx where
  scl : ℚ
  stack : List ℚ
  deriving DecidableEq

/-- The transform at the start of every `draw()` call: the identity. -/
def Gfx.frameStart : Gfx := ⟨1, []⟩

/-- The library call `push()`. -/
def Gfx.push (g : Gfx) : Gfx := { g with stack := g.scl :: g.stack }

/-- The library call `pop()`; nothing is restored when nothing was saved. -/
def Gfx.pop (g : Gfx) : Gfx :=
  match g.stack with
  | [] => g
  | s :: rest => ⟨s, rest⟩

/-- The library call `scale(s)`: multiplies the current transform. -/
def Gfx.scale (g : Gfx) (s : ℚ) : Gfx := { g with scl := g.scl * s }

/-- The loop `for (let i = start; i < bound; i++) body`, as a state
transformer, with an explicit step budget. -/
def forLoop {σ : Type} (bound : ℤ) (body : ℕ → σ → σ) : ℕ → ℕ → σ → σ
  | 0, _, s => s
  | fuel + 1, i, s =>
    if (i : ℤ) < bound then forLoop bound body fuel (i + 1) (body i s) else s

/-- The loop `for (let i = 0; i < bound; i++) body`: `bound` steps are
enough (see `forLoop_exits`). -/
def forUpTo {σ : Type} (bound : ℤ) (body : ℕ → σ → σ) (s : σ) : σ :=
  forLoop bound body bound.toNat 0 s

end P5

namespace Mandala

open P5

/-- The constant `autonomousDistortion` of `draw`, from the value `n` of
`noise(time * 0.05 + 1000)`. -/
def autonomousDistortion (n : ℚ) : ℚ := map n 0 1 10 30

/-- The constant `autonomousRotation` of `draw`, from the value `n` of
`noise(time * 0.1)`. -/
def autonomousRotation (n : ℚ) : ℚ := map n 0 1 (-10) 10

/-- The constant `amplificationFactor` of `draw`, from the pointer-to-centre
distance `d` and the canvas width. -/
def amplificationFactor (d width : ℚ) : ℚ := map d 0 (width / 2) 5 1

/-- The constant `baseSymmetry` of `draw`. The product is taken exactly; the
source rounds it to a double before `floor`, which can move the result by one
next to an integer boundary. -/
def baseSymmetry (n amp : ℚ) : ℤ := floor (autonomousDistortion n * amp)

/-- The constant `effectiveSymmetry` of `draw`. -/
def effectiveSymmetry (n amp : ℚ) : ℤ := constrain (baseSymmetry n amp) 16 60

/-- The constant `fadeOpacity` of `draw`. -/
def fadeOpacity (amp : ℚ) : ℚ := map amp 1 5 10 30

/-- The constant `hue` of the segment loop. `sym` is `effectiveSymmetry`. -/
def hue (i : ℕ) (sym : ℤ) (time : ℚ) (layer : ℕ) : ℚ :=
  jsRem ((i : ℚ) * (360 / (sym : ℚ)) + time * 20 + (layer : ℚ) * 40) 360

/-- The constant `smallHue` of the mini-mandala loop. -/
def smallHue (hue : ℚ) (k : ℕ) : ℚ := jsRem (hue + (k : ℚ) * 60) 360

/-- What one pass of the segment loop `for (let i = 0; i < effectiveSymmetry; i++)`
computes, as far as the claims go. -/
structure Segment where
  layer : ℕ
  i : ℕ
  /-- The divisor of the two evaluations of `360 / effectiveSymmetry`. -/
  divisor : ℤ
  /-- The scale factor of the transform under which the main pattern of the
  segment is drawn. -/
  scl : ℚ
  radius : ℚ
  hue : ℚ
  /-- The five values of `smallHue`, `k = 0..4`. -/
  smallHues : List ℚ
  /-- The scale factor of the transform under which the mini-mandala is drawn. -/
  miniScl : ℚ

/-- State of one `draw()` call: the transform and the segments drawn so far. -/
structure Frame where
  gfx : Gfx
  log : List Segment

/-- Body of the segment loop (lines 69-109). -/
def segmentBody (time amp : ℚ) (sym : ℤ) (layer : ℕ) (scaleFactor : ℚ)
    (i : ℕ) (f : Frame) : Frame :=
  -- rotate(360 / effectiveSymmetry)
  let h := hue i sym time layer
  let radius := 300 * scaleFactor
  -- 1. push(); stroke; strokeWeight; line; ellipse x3; pop()
  let g1 := f.gfx.push
  let mainScl := g1.scl
  let g2 := g1.pop
  -- 2. push(); rotate; translate; scale(0.15 * amplificationFactor); ...; pop()
  let g3 := g2.push.scale (0.15 * amp)
  let smallHues := (List.range 5).map (smallHue h)
  let g4 := g3.pop
  ⟨g4, f.log ++ [⟨layer, i, sym, mainScl, radius, h, smallHues, g3.scl⟩]⟩

/-- Body of the layer loop (lines 64-110): `scale(scaleFactor)` is applied to
the current transform with no `push()`/`pop()` around the layer. -/
def layerBody (time amp : ℚ) (sym : ℤ) (layer : ℕ) (f : Frame) : Frame :=
  let scaleFactor : ℚ := 1 - (layer : ℚ) * 0.15
  let g := f.gfx.scale scaleFactor
  forUpTo sym (segmentBody time amp sym layer scaleFactor) ⟨g, f.log⟩

/-- The constant `deepLayerCount` of `draw`. -/
def deepLayerCount : ℤ := 3

/-- The main loop of `draw` (lines 64-110), entered under the transform left
by `translate` and `rotate`, whose scale factor is 1. -/
def mainLoop (time amp : ℚ) (sym : ℤ) : Frame :=
  forUpTo deepLayerCount (layerBody time amp sym) ⟨Gfx.frameStart, []⟩

/-- The function `draw`, for elapsed time `time` (seconds), pointer-to-centre
distance `d` and canvas width `width`. -/
def draw (L : Lib) (time d width : ℚ) : Frame :=
  let amp := amplificationFactor d width
  let sym := effectiveSymmetry (L.noise (time * 0.05 + 1000)) amp
  -- background; translate(centerX, centerY); rotate(autonomousRotation * amp)
  mainLoop time amp sym

end Mandala

namespace Ojo

open P5

/-- A JavaScript number that may be `NaN`. -/
inductive Num where
  | nan
  | fin (q : ℚ)
  deriving DecidableEq

/-- Conversion of a property value to a number: `undefined` gives `NaN`. -/
def Num.ofProperty : Option ℚ → Num
  | none => .nan
  | some q => .fin q

/-- The sum of two numbers. -/
def Num.add : Num → Num → Num
  | .fin a, .fin b => .fin (a + b)
  | _, _ => .nan

/-- The product of two numbers. -/
def Num.mul : Num → Num → Num
  | .fin a, .fin b => .fin (a * b)
  | _, _ => .nan

/-- The comparison `a > b`: false when `a` is `NaN`. -/
def Num.gt : Num → ℚ → Bool
  | .fin a, b => decide (b < a)
  | .nan, _ => false

/-- The library call `sin` on a number that may be `NaN`. -/
def sinNum (L : Lib) : Num → Num
  | .fin a => .fin (L.sin a)
  | .nan => .nan

/-- The fields of a `Crystal`. `seed` is read by `update` and assigned
nowhere in the file: it is `none` (`undefined`) unless set from outside. -/
structure Crystal where
  hue : ℚ
  angle : ℚ
  dist : Num
  size : ℚ
  speed : ℚ
  rotationSpeed : ℚ
  type : ℤ
  seed : Option ℚ

/-- The constructor of `Crystal`, given the seven draws of the generator. -/
def Crystal.new (u1 u2 u3 u4 u5 u6 u7 : ℚ) : Crystal where
  hue := random1 u1 360
  angle := random1 u2 360
  dist := .fin (random2 u3 100 400)
  size := random2 u4 8 20
  speed := random2 u5 0.8 2.5
  rotationSpeed := random2 u6 (-0.5) 0.5
  type := floor (random1 u7 4)
  seed := none

/-- The value of `this.dist` after line 29 of `update`. -/
def Crystal.advancedDist (L : Lib) (c : Crystal) (time amp : ℚ) : Num :=
  Num.add c.dist
    (Num.mul (Num.mul (sinNum L (Num.add (.fin (time * 0.8)) (Num.ofProperty c.seed)))
      (.fin 0.8)) (.fin amp))

/-- The respawn threshold of `update`. -/
def respawnThreshold : ℚ := 500

/-- The method `Crystal.update(time, amplification)`; `u1` and `u2` are the
draws of the generator used by the two `random` calls of the respawn branch. -/
def Crystal.update (L : Lib) (u1 u2 : ℚ) (c : Crystal) (time amp : ℚ) : Crystal :=
  let angle := c.angle + c.speed * 0.5 * amp
  let dist := c.advancedDist L time amp
  let hue := jsRem (c.hue + 0.2) 360
  if dist.gt respawnThreshold then
    { c with angle := angle, dist := .fin (random2 u1 50 150), hue := random1 u2 360 }
  else
    { c with angle := angle, dist := dist, hue := hue }

/-- The constant `amplificationFactor` of `draw`. -/
def amplificationFactor (d width : ℚ) : ℚ := map d 0 (width / 2) 4 1

/-- The constant `parpadeo` of `draw`. -/
def parpadeo (L : Lib) (time : ℚ) : ℚ := (L.sin (time * 0.7) + 1) / 2

/-- The constant `coreSize` of `draw`. -/
def coreSize (amp : ℚ) : ℚ := 180 * amp

/-- The constant `eyeHue` of `draw`. -/
def eyeHue (time : ℚ) : ℚ := jsRem (time * 50) 360

/-- The constant `pupilHue` of `draw`. -/
def pupilHue (time : ℚ) : ℚ := jsRem (time * 100) 360

/-- The constant `symmetry` of `draw`. -/
def symmetry (amp parp : ℚ) : ℤ := floor (36 * amp * (parp + 0.5))

/-- The constant `layerCount` of `draw`. -/
def layerCount : ℤ := 3

/-- The constant `segmentHue` of the crystal ring loop. -/
def segmentHue (i : ℕ) (sym : ℤ) (time : ℚ) (l : ℕ) : ℚ :=
  jsRem ((i : ℚ) * (360 / (sym : ℚ)) + time * 30 + (l : ℚ) * 90) 360

/-- What one pass of the ring loop `for (let i = 0; i < symmetry; i++)`
computes, as far as the claims go. -/
structure Segment where
  layer : ℕ
  i : ℕ
  /-- The divisor of the two evaluations of `360 / symmetry`. -/
  divisor : ℤ
  /-- The scale factor of the transform under which the fragment is drawn. -/
  scl : ℚ
  hue : ℚ

/-- State of one `draw()` call: the transform and the fragments drawn so far. -/
structure Frame where
  gfx : Gfx
  log : List Segment

/-- Body of the ring loop (lines 161-182). -/
def segmentBody (time : ℚ) (sym : ℤ) (l : ℕ) (i : ℕ) (f : Frame) : Frame :=
  -- rotate(360 / symmetry)
  let h := segmentHue i sym time l
  -- push(); translate; rotate; stroke; fill; strokeWeight; triangle x2; pop()
  let g1 := f.gfx.push
  let g2 := g1.pop
  ⟨g2, f.log ++ [⟨l, i, sym, g1.scl, h⟩]⟩

/-- Body of the layer loop (lines 156-184): the layer is drawn between
`push()` and `pop()`. -/
def layerBody (time : ℚ) (sym : ℤ) (l : ℕ) (f : Frame) : Frame :=
  let g := f.gfx.push.scale (1 - (l : ℚ) * 0.15)
  let f1 := forUpTo sym (segmentBody time sym l) ⟨g, f.log⟩
  ⟨f1.gfx.pop, f1.log⟩

/-- The ring loop of `draw` (lines 156-184), entered under the transform left
by `translate` and `rotate`, whose scale factor is 1: the central eye is
drawn between `push()` and `pop()`. -/
def ringLoop (time : ℚ) (sym : ℤ) : Frame :=
  forUpTo layerCount (layerBody time sym) ⟨Gfx.frameStart, []⟩

/-- The function `draw` up to the ring (lines 100-184), for time `time`
(seconds, offset included), pointer-to-centre distance `d` and canvas width
`width`. -/
def draw (L : Lib) (time d width : ℚ) : Frame :=
  let amp := amplificationFactor d width
  let sym := symmetry amp (parpadeo L time)
  ringLoop time sym

end Ojo

namespace MediaSession

/-- What the script observes of its host. -/
structure Host where
  /-- Whether `'mediaSession' in navigator` holds. -/
  hasMediaSession : Bool
  /-- Whether `typeof window.togglePlayPause === 'function'`. -/
  togglePlayPauseIsFunction : Bool
  /-- Whether `typeof window.handlePlayback === 'function'`. -/
  handlePlaybackIsFunction : Bool
  deriving DecidableEq

/-- The four arrow functions passed to `setActionHandler`, in source order. -/
inductive Callback where
  | onPlay
  | onPause
  | onPreviousTrack
  | onNextTrack
  deriving DecidableEq

/-- The observable effects of the script and of its callbacks. -/
inductive Effect where
  | setActionHandler (action : String) (cb : Callback)
  | defineUpdateMediaSession
  | consoleWarn (msg : String)
  | callTogglePlayPause
  | callHandlePlayback (direction : String)
  | setMetadata (title artist album artworkSrc : String)
  | setPositionState
  deriving DecidableEq

/-- Running one of the registered callbacks. -/
def Callback.run (h : Host) : Callback → List Effect
  | .onPlay => if h.togglePlayPauseIsFunction then [.callTogglePlayPause] else []
  | .onPause => if h.togglePlayPauseIsFunction then [.callTogglePlayPause] else []
  | .onPreviousTrack =>
    if h.handlePlaybackIsFunction then [.callHandlePlayback "prev"] else []
  | .onNextTrack =>
    if h.handlePlaybackIsFunction then [.callHandlePlayback "next"] else []

/-- The call `navigator.mediaSession.setActionHandler(action, cb)`: a
`TypeError` when `navigator.mediaSession` is `undefined`. -/
def setActionHandler (h : Host) (action : String) (cb : Callback) :
    Except String Effect :=
  if h.hasMediaSession then .ok (.setActionHandler action cb)
  else .error "TypeError: navigator.mediaSession is undefined"

/-- The text of the warning of line 103. -/
def warning : String :=
  "Media Session API no soportada en este navegador. El control de SO/auriculares estará deshabilitado."

/-- The top level of `media-session.js`: the effects of loading the script,
or the error it raises. -/
def script (h : Host) : Except String (List Effect) :=
  if h.hasMediaSession then do
    let e1 ← setActionHandler h "play" .onPlay
    let e2 ← setActionHandler h "pause" .onPause
    let e3 ← setActionHandler h "previoustrack" .onPreviousTrack
    let e4 ← setActionHandler h "nexttrack" .onNextTrack
    pure [e1, e2, e3, e4, .defineUpdateMediaSession]
  else
    pure [.consoleWarn warning]

/-- The actions for which an effect list registers a handler. -/
def registeredActions : List Effect → List String
  | [] => []
  | .setActionHandler a _ :: es => a :: registeredActions es
  | _ :: es => registeredActions es

end MediaSession


/-! Theorems. -/

namespace P5

theorem map_affine (d h k : ℚ) :
    map d 0 h k 1 = k - d / h * (k - 1) := by
  unfold map
  ring

end P5

/-- C7: for every canvas width above zero the amplification factor of both
sketches does not grow when the pointer-to-centre distance grows. -/
theorem amplification_antitone (width d1 d2 : ℚ) (hw : 0 < width) (hd : d1 ≤ d2) :
    Mandala.amplificationFactor d2 width ≤ Mandala.amplificationFactor d1 width ∧
    Ojo.amplificationFactor d2 width ≤ Ojo.amplificationFactor d1 width := by
  have hh : (0 : ℚ) < width / 2 := by positivity
  have hq : d1 / (width / 2) ≤ d2 / (width / 2) := div_le_div_of_nonneg_right hd hh.le
  unfold Mandala.amplificationFactor Ojo.amplificationFactor
  rw [P5.map_affine, P5.map_affine, P5.map_affine,
    P5.map_affine]
  constructor <;> nlinarith

theorem amplification_antitone_witness :
    Mandala.amplificationFactor 400 800 ≤ Mandala.amplificationFactor 100 800 ∧
    Ojo.amplificationFactor 400 800 ≤ Ojo.amplificationFactor 100 800 :=
  amplification_antitone 800 100 400 (by norm_num) (by norm_num)

/-- The amplification factor is within its target range as long as the
pointer is no farther than half the canvas width from the centre. -/
theorem amplification_range_of_near (width d : ℚ) (hw : 0 < width) (h0 : 0 ≤ d)
    (hd : d ≤ width / 2) :
    (1 ≤ Mandala.amplificationFactor d width ∧ Mandala.amplificationFactor d width ≤ 5) ∧
    (1 ≤ Ojo.amplificationFactor d width ∧ Ojo.amplificationFactor d width ≤ 4) := by
  have hh : (0 : ℚ) < width / 2 := by positivity
  have hq0 : 0 ≤ d / (width / 2) := div_nonneg h0 hh.le
  have hq1 : d / (width / 2) ≤ 1 := (div_le_one hh).2 hd
  unfold Mandala.amplificationFactor Ojo.amplificationFactor
  rw [P5.map_affine, P5.map_affine]
  refine ⟨⟨?_, ?_⟩, ?_, ?_⟩ <;> nlinarith

/-- C1: on an 800 x 600 canvas with the pointer in a corner (distance 500
from the centre, more than half the width) the amplification factor is 0 in
the mandala sketch and 1/4 in the eye sketch: below the documented minimum 1.
Past twice the half-width it is negative in the mandala sketch. -/
theorem amplification_below_min :
    Mandala.amplificationFactor 500 800 = 0 ∧
    Ojo.amplificationFactor 500 800 = 1 / 4 ∧
    Mandala.amplificationFactor 500 600 = -5 / 3 ∧
    Mandala.fadeOpacity (Mandala.amplificationFactor 500 800) = 5 := by
  unfold Mandala.fadeOpacity Mandala.amplificationFactor Ojo.amplificationFactor P5.map
  norm_num

/-- The result of `constrain(n, low, high)` lies between `low` and `high`
whenever `low ≤ high`. -/
theorem constrain_range {α : Type} [LinearOrder α] (n low high : α) (h : low ≤ high) :
    low ≤ P5.constrain n low high ∧ P5.constrain n low high ≤ high := by
  unfold P5.constrain
  exact ⟨le_max_right _ _, max_le (min_le_right _ _) h⟩

/-- C2: whatever the noise value and the amplification factor,
`effectiveSymmetry` is an integer between 16 and 60. -/
theorem effectiveSymmetry_range (n amp : ℚ) :
    16 ≤ Mandala.effectiveSymmetry n amp ∧ Mandala.effectiveSymmetry n amp ≤ 60 := by
  unfold Mandala.effectiveSymmetry
  exact constrain_range _ 16 60 (by norm_num)

theorem baseSymmetry_one (n : ℚ) : Mandala.baseSymmetry n 1 = ⌊10 + 20 * n⌋ := by
  unfold Mandala.baseSymmetry Mandala.autonomousDistortion P5.floor P5.map
  congr 1
  ring

theorem baseSymmetry_five (n : ℚ) : Mandala.baseSymmetry n 5 = ⌊50 + 100 * n⌋ := by
  unfold Mandala.baseSymmetry Mandala.autonomousDistortion P5.floor P5.map
  congr 1
  ring

/-- C4, as stated, fails: with noise value 1 and amplification 1 the symmetry
is 30, not the minimum 16; with noise value 0 and amplification 5 it is 50,
not the maximum 60. -/
theorem effectiveSymmetry_not_at_bounds :
    Mandala.effectiveSymmetry 1 1 = 30 ∧ Mandala.effectiveSymmetry 1 1 ≠ 16 ∧
    Mandala.effectiveSymmetry 0 5 = 50 ∧ Mandala.effectiveSymmetry 0 5 ≠ 60 := by
  have h1 : Mandala.effectiveSymmetry 1 1 = 30 := by
    unfold Mandala.effectiveSymmetry
    rw [baseSymmetry_one]
    norm_num [P5.constrain]
  have h2 : Mandala.effectiveSymmetry 0 5 = 50 := by
    unfold Mandala.effectiveSymmetry
    rw [baseSymmetry_five]
    norm_num [P5.constrain]
  exact ⟨h1, by rw [h1]; decide, h2, by rw [h2]; decide⟩

/-- C4, amended: for a noise value `n` in [0, 1], at amplification 1 the
symmetry lies in [16, 30] and at amplification 5 it lies in [50, 60]; the
minimum 16 is taken at amplification 1 with noise 0 and the maximum 60 at
amplification 5 with noise 1. -/
theorem effectiveSymmetry_at_extremes (n : ℚ) (h0 : 0 ≤ n) (h1 : n ≤ 1) :
    (16 ≤ Mandala.effectiveSymmetry n 1 ∧ Mandala.effectiveSymmetry n 1 ≤ 30) ∧
    (50 ≤ Mandala.effectiveSymmetry n 5 ∧ Mandala.effectiveSymmetry n 5 ≤ 60) ∧
    Mandala.effectiveSymmetry 0 1 = 16 ∧ Mandala.effectiveSymmetry 1 5 = 60 := by
  have a2 : ⌊10 + 20 * n⌋ ≤ 30 := by
    have : ⌊10 + 20 * n⌋ < 31 := Int.floor_lt.2 (by push_cast; linarith)
    omega
  have b1 : (50 : ℤ) ≤ ⌊50 + 100 * n⌋ := Int.le_floor.2 (by push_cast; linarith)
  have e1 : Mandala.effectiveSymmetry 0 1 = 16 := by
    unfold Mandala.effectiveSymmetry
    rw [baseSymmetry_one]
    norm_num [P5.constrain]
  have e2 : Mandala.effectiveSymmetry 1 5 = 60 := by
    unfold Mandala.effectiveSymmetry
    rw [baseSymmetry_five]
    norm_num [P5.constrain]
  refine ⟨⟨?_, ?_⟩, ⟨?_, ?_⟩, e1, e2⟩
  · unfold Mandala.effectiveSymmetry
    exact (constrain_range _ 16 60 (by norm_num)).1
  · unfold Mandala.effectiveSymmetry P5.constrain
    rw [baseSymmetry_one]
    exact max_le ((min_le_left _ _).trans a2) (by norm_num)
  · unfold Mandala.effectiveSymmetry P5.constrain
    rw [baseSymmetry_five]
    exact le_max_of_le_left (le_min b1 (by norm_num))
  · unfold Mandala.effectiveSymmetry
    exact (constrain_range _ 16 60 (by norm_num)).2

theorem effectiveSymmetry_at_extremes_witness :
    (16 ≤ Mandala.effectiveSymmetry (1 / 2) 1 ∧ Mandala.effectiveSymmetry (1 / 2) 1 ≤ 30) ∧
    (50 ≤ Mandala.effectiveSymmetry (1 / 2) 5 ∧ Mandala.effectiveSymmetry (1 / 2) 5 ≤ 60) ∧
    Mandala.effectiveSymmetry 0 1 = 16 ∧ Mandala.effectiveSymmetry 1 5 = 60 :=
  effectiveSymmetry_at_extremes (1 / 2) (by norm_num) (by norm_num)

namespace P5

theorem forLoop_eq_foldl {σ : Type} (bound : ℤ) (body : ℕ → σ → σ) :
    ∀ (fuel i : ℕ) (s : σ), bound ≤ (i : ℤ) + fuel →
      forLoop bound body fuel i s =
        (List.range' i (bound.toNat - i)).foldl (fun s j => body j s) s := by
  intro fuel
  induction fuel with
  | zero =>
    intro i s h
    have : bound.toNat - i = 0 := by omega
    simp [forLoop, this]
  | succ fuel ih =>
    intro i s h
    unfold forLoop
    split_ifs with hlt
    · rw [ih (i + 1) (body i s) (by push_cast; omega)]
      have : bound.toNat - i = (bound.toNat - (i + 1)) + 1 := by omega
      rw [this, List.range'_succ]
      rfl
    · have : bound.toNat - i = 0 := by omega
      simp [this]

/-- The step budget of `forUpTo` is never what ends the loop: the body runs
for `i = 0, 1, ..., bound - 1` in turn (not at all when `bound ≤ 0`). -/
theorem forLoop_exits {σ : Type} (bound : ℤ) (body : ℕ → σ → σ) (s : σ) :
    forUpTo bound body s = (List.range bound.toNat).foldl (fun s j => body j s) s := by
  unfold forUpTo
  rw [forLoop_eq_foldl bound body _ 0 s (by push_cast; omega), List.range_eq_range']
  simp

/-- Hoare rule of the `for` loop: an invariant kept by every pass of the body
that the guard lets through holds when the loop is left. -/
theorem forLoop_invariant {σ : Type} (bound : ℤ) (body : ℕ → σ → σ) (P : σ → Prop)
    (hbody : ∀ (i : ℕ) (s : σ), (i : ℤ) < bound → P s → P (body i s)) :
    ∀ (fuel i : ℕ) (s : σ), P s → P (forLoop bound body fuel i s) := by
  intro fuel
  induction fuel with
  | zero => intro i s hs; exact hs
  | succ fuel ih =>
    intro i s hs
    unfold forLoop
    split_ifs with hlt
    · exact ih (i + 1) (body i s) (hbody i s hlt hs)
    · exact hs

theorem Gfx.pop_push (g : Gfx) : g.push.pop = g := rfl

theorem Gfx.pop_scale_push (g : Gfx) (s : ℚ) : (g.push.scale s).pop = g := rfl

end P5


theorem mandala_foldl_segmentBody (time amp : ℚ) (sym : ℤ) (layer : ℕ) (sf : ℚ) :
    ∀ (js : List ℕ) (f : Mandala.Frame),
      js.foldl (fun s j => Mandala.segmentBody time amp sym layer sf j s) f =
        ⟨f.gfx, f.log ++ js.map (fun i => ⟨layer, i, sym, f.gfx.scl, 300 * sf,
          Mandala.hue i sym time layer,
          (List.range 5).map (Mandala.smallHue (Mandala.hue i sym time layer)),
          f.gfx.scl * (0.15 * amp)⟩)⟩ := by
  intro js
  induction js with
  | nil => intro f; simp
  | cons j js ih =>
    intro f
    rw [List.foldl_cons, ih]
    simp [Mandala.segmentBody, P5.Gfx.push, P5.Gfx.pop, P5.Gfx.scale]

/-- The segment loop of the mandala sketch leaves the transform as it found
it and draws one segment for each `i = 0, ..., effectiveSymmetry - 1`. -/
theorem mandala_segmentLoop_eq (time amp : ℚ) (sym : ℤ) (layer : ℕ) (sf : ℚ)
    (f : Mandala.Frame) :
    P5.forUpTo sym (Mandala.segmentBody time amp sym layer sf) f =
      ⟨f.gfx, f.log ++ (List.range sym.toNat).map (fun i => ⟨layer, i, sym, f.gfx.scl,
        300 * sf, Mandala.hue i sym time layer,
        (List.range 5).map (Mandala.smallHue (Mandala.hue i sym time layer)),
        f.gfx.scl * (0.15 * amp)⟩)⟩ := by
  rw [P5.forLoop_exits, mandala_foldl_segmentBody]

/-- The segments the main loop of the mandala sketch draws, in order: three
layers of `sym` segments each, under the scale factors 1, 17/20 and 119/200. -/
theorem mandala_mainLoop_log (time amp : ℚ) (sym : ℤ) :
    (Mandala.mainLoop time amp sym).log =
      (List.range sym.toNat).map (fun i =>
        (⟨0, i, sym, 1, 300, Mandala.hue i sym time 0,
          (List.range 5).map (Mandala.smallHue (Mandala.hue i sym time 0)),
          1 * (0.15 * amp)⟩ : Mandala.Segment)) ++
      (List.range sym.toNat).map (fun i =>
        (⟨1, i, sym, 17 / 20, 255, Mandala.hue i sym time 1,
          (List.range 5).map (Mandala.smallHue (Mandala.hue i sym time 1)),
          17 / 20 * (0.15 * amp)⟩ : Mandala.Segment)) ++
      (List.range sym.toNat).map (fun i =>
        (⟨2, i, sym, 119 / 200, 210, Mandala.hue i sym time 2,
          (List.range 5).map (Mandala.smallHue (Mandala.hue i sym time 2)),
          119 / 200 * (0.15 * amp)⟩ : Mandala.Segment)) := by
  have h : Mandala.mainLoop time amp sym =
      Mandala.layerBody time amp sym 2 (Mandala.layerBody time amp sym 1
        (Mandala.layerBody time amp sym 0 ⟨P5.Gfx.frameStart, []⟩)) := by
    simp [Mandala.mainLoop, P5.forUpTo, P5.forLoop, Mandala.deepLayerCount]
  rw [h]
  simp only [Mandala.layerBody, mandala_segmentLoop_eq, P5.Gfx.scale, P5.Gfx.frameStart,
    List.nil_append]
  norm_num

/-- Every segment the main loop of the mandala sketch draws: its divisor is
the symmetry count, its index is below it, its hues are those of lines 74 and
103, and its scale factor is that of its layer. -/
theorem mandala_mainLoop_spec (time amp : ℚ) (sym : ℤ) :
    ∀ seg ∈ (Mandala.mainLoop time amp sym).log,
      seg.divisor = sym ∧ (seg.i : ℤ) < sym ∧
      seg.hue = Mandala.hue seg.i sym time seg.layer ∧
      seg.smallHues = (List.range 5).map (Mandala.smallHue seg.hue) ∧
      ((seg.layer = 0 ∧ seg.scl = 1) ∨ (seg.layer = 1 ∧ seg.scl = 17 / 20) ∨
        (seg.layer = 2 ∧ seg.scl = 119 / 200)) := by
  intro seg hseg
  rw [mandala_mainLoop_log] at hseg
  simp only [List.mem_append, List.mem_map, List.mem_range] at hseg
  rcases hseg with (⟨i, hi, rfl⟩ | ⟨i, hi, rfl⟩) | ⟨i, hi, rfl⟩
  · exact ⟨rfl, by dsimp only; omega, rfl, rfl, Or.inl ⟨rfl, rfl⟩⟩
  · exact ⟨rfl, by dsimp only; omega, rfl, rfl, Or.inr (Or.inl ⟨rfl, rfl⟩)⟩
  · exact ⟨rfl, by dsimp only; omega, rfl, rfl, Or.inr (Or.inr ⟨rfl, rfl⟩)⟩

theorem ojo_foldl_segmentBody (time : ℚ) (sym : ℤ) (l : ℕ) :
    ∀ (js : List ℕ) (f : Ojo.Frame),
      js.foldl (fun s j => Ojo.segmentBody time sym l j s) f =
        ⟨f.gfx, f.log ++ js.map (fun i => ⟨l, i, sym, f.gfx.scl,
          Ojo.segmentHue i sym time l⟩)⟩ := by
  intro js
  induction js with
  | nil => intro f; simp
  | cons j js ih =>
    intro f
    rw [List.foldl_cons, ih]
    simp [Ojo.segmentBody, P5.Gfx.push, P5.Gfx.pop]

/-- The ring loop of the eye sketch leaves the transform as it found it and
draws one fragment for each `i = 0, ..., symmetry - 1`. -/
theorem ojo_segmentLoop_eq (time : ℚ) (sym : ℤ) (l : ℕ) (f : Ojo.Frame) :
    P5.forUpTo sym (Ojo.segmentBody time sym l) f =
      ⟨f.gfx, f.log ++ (List.range sym.toNat).map (fun i => ⟨l, i, sym, f.gfx.scl,
        Ojo.segmentHue i sym time l⟩)⟩ := by
  rw [P5.forLoop_exits, ojo_foldl_segmentBody]

/-- The fragments the ring loop of the eye sketch draws, in order: three
layers of `sym` fragments each, under the scale factors 1, 17/20 and 7/10. -/
theorem ojo_ringLoop_log (time : ℚ) (sym : ℤ) :
    (Ojo.ringLoop time sym).log =
      (List.range sym.toNat).map (fun i =>
        (⟨0, i, sym, 1, Ojo.segmentHue i sym time 0⟩ : Ojo.Segment)) ++
      (List.range sym.toNat).map (fun i =>
        (⟨1, i, sym, 17 / 20, Ojo.segmentHue i sym time 1⟩ : Ojo.Segment)) ++
      (List.range sym.toNat).map (fun i =>
        (⟨2, i, sym, 7 / 10, Ojo.segmentHue i sym time 2⟩ : Ojo.Segment)) := by
  have h : Ojo.ringLoop time sym =
      Ojo.layerBody time sym 2 (Ojo.layerBody time sym 1
        (Ojo.layerBody time sym 0 ⟨P5.Gfx.frameStart, []⟩)) := by
    simp [Ojo.ringLoop, P5.forUpTo, P5.forLoop, Ojo.layerCount]
  rw [h]
  simp only [Ojo.layerBody, ojo_segmentLoop_eq, P5.Gfx.scale, P5.Gfx.push, P5.Gfx.pop,
    P5.Gfx.frameStart, List.nil_append]
  norm_num

/-- Every fragment the ring loop of the eye sketch draws: its divisor is the
symmetry count, its index is below it, its hue is that of line 164, and its
scale factor is that of its layer. -/
theorem ojo_ringLoop_spec (time : ℚ) (sym : ℤ) :
    ∀ seg ∈ (Ojo.ringLoop time sym).log,
      seg.divisor = sym ∧ (seg.i : ℤ) < sym ∧
      seg.hue = Ojo.segmentHue seg.i sym time seg.layer ∧
      ((seg.layer = 0 ∧ seg.scl = 1) ∨ (seg.layer = 1 ∧ seg.scl = 17 / 20) ∨
        (seg.layer = 2 ∧ seg.scl = 7 / 10)) := by
  intro seg hseg
  rw [ojo_ringLoop_log] at hseg
  simp only [List.mem_append, List.mem_map, List.mem_range] at hseg
  rcases hseg with (⟨i, hi, rfl⟩ | ⟨i, hi, rfl⟩) | ⟨i, hi, rfl⟩
  · exact ⟨rfl, by dsimp only; omega, rfl, Or.inl ⟨rfl, rfl⟩⟩
  · exact ⟨rfl, by dsimp only; omega, rfl, Or.inr (Or.inl ⟨rfl, rfl⟩)⟩
  · exact ⟨rfl, by dsimp only; omega, rfl, Or.inr (Or.inr ⟨rfl, rfl⟩)⟩

namespace P5

theorem trunc_of_nonneg (x : ℚ) (h : 0 ≤ x) : trunc x = ⌊x⌋ := by
  unfold trunc
  rw [if_pos h]

/-- For a dividend that is not negative and a positive divisor, `a % b` lies
in `[0, b)`. -/
theorem jsRem_range (a b : ℚ) (ha : 0 ≤ a) (hb : 0 < b) :
    0 ≤ jsRem a b ∧ jsRem a b < b := by
  unfold jsRem
  rw [trunc_of_nonneg _ (div_nonneg ha hb.le)]
  have h1 : ((⌊a / b⌋ : ℤ) : ℚ) ≤ a / b := Int.floor_le _
  have h2 : a / b < (⌊a / b⌋ : ℚ) + 1 := Int.lt_floor_add_one _
  have e : a = b * (a / b) := by field_simp
  constructor
  · have := mul_le_mul_of_nonneg_left h1 hb.le
    linarith
  · have := mul_lt_mul_of_pos_left h2 hb
    linarith

end P5

/-- In the eye sketch the symmetry count is at least 18 as long as the
pointer is no farther than half the canvas width from the centre. -/
theorem symmetry_pos_of_near (L : P5.Lib) (hL : L.Valid) (time width d : ℚ) (hw : 0 < width)
    (h0 : 0 ≤ d) (hd : d ≤ width / 2) :
    18 ≤ Ojo.symmetry (Ojo.amplificationFactor d width) (Ojo.parpadeo L time) := by
  have ha := (amplification_range_of_near width d hw h0 hd).2.1
  have hs := (hL.1 (time * 0.7)).1
  unfold Ojo.symmetry P5.floor
  rw [Int.le_floor]
  unfold Ojo.parpadeo
  push_cast
  have hp : 0 ≤ (L.sin (time * 0.7) + 1) / 2 := by linarith
  nlinarith

/-- C3: on a 600 x 800 canvas with the pointer in a corner (distance 500 from
the centre) the amplification factor of the eye sketch is -1 and, at a moment
when `sin(time * 0.7)` is 0, the symmetry count is -36: the ring loop draws
nothing. -/
theorem symmetry_not_positive_far :
    Ojo.amplificationFactor 500 600 = -1 ∧
    Ojo.symmetry (Ojo.amplificationFactor 500 600) (Ojo.parpadeo ⟨fun _ => 0, fun _ => 0⟩ 0)
      = -36 ∧
    (Ojo.draw ⟨fun _ => 0, fun _ => 0⟩ 0 500 600).log = [] := by
  have h : Ojo.symmetry (Ojo.amplificationFactor 500 600)
      (Ojo.parpadeo ⟨fun _ => 0, fun _ => 0⟩ 0) = -36 := by
    unfold Ojo.symmetry Ojo.amplificationFactor Ojo.parpadeo P5.map P5.floor
    norm_num
  refine ⟨by unfold Ojo.amplificationFactor P5.map; norm_num, h, ?_⟩
  unfold Ojo.draw
  simp only [h]
  rw [ojo_ringLoop_log]
  simp

/-- While a crystal has no `seed`, `update` turns its `dist` into `NaN`,
leaves it without a `seed`, and does not take the respawn branch. -/
theorem update_of_seedless (L : P5.Lib) (v1 v2 : ℚ) (c : Ojo.Crystal) (time amp : ℚ)
    (hs : c.seed = none) :
    (c.advancedDist L time amp).gt Ojo.respawnThreshold = false ∧
    (c.update L v1 v2 time amp).dist = .nan ∧
    (c.update L v1 v2 time amp).seed = none ∧
    (c.update L v1 v2 time amp).hue = P5.jsRem (c.hue + 0.2) 360 := by
  have hadv : c.advancedDist L time amp = .nan := by
    cases hd : c.dist <;>
      simp [Ojo.Crystal.advancedDist, hs, hd, Ojo.Num.ofProperty, Ojo.Num.add, Ojo.Num.mul,
        Ojo.sinNum]
  simp [Ojo.Crystal.update, hadv, Ojo.Num.gt, hs]

/-- C5: a crystal made by the constructor has no `seed`, so its first
`update` turns `dist` into `NaN`; the test `dist > 500` is then false in that
call and in the next one, so the distance is never reset to a value in
[50, 150) and the hue is never rerolled: it only advances by 0.2 per call. -/
theorem update_of_new_never_respawns (L : P5.Lib)
    (u1 u2 u3 u4 u5 u6 u7 v1 v2 w1 w2 time amp time2 amp2 : ℚ) :
    ((Ojo.Crystal.new u1 u2 u3 u4 u5 u6 u7).advancedDist L time amp).gt
      Ojo.respawnThreshold = false ∧
    ((Ojo.Crystal.new u1 u2 u3 u4 u5 u6 u7).update L v1 v2 time amp).dist = .nan ∧
    ((Ojo.Crystal.new u1 u2 u3 u4 u5 u6 u7).update L v1 v2 time amp).hue =
      P5.jsRem (P5.random1 u1 360 + 0.2) 360 ∧
    (((Ojo.Crystal.new u1 u2 u3 u4 u5 u6 u7).update L v1 v2 time amp).advancedDist L
      time2 amp2).gt Ojo.respawnThreshold = false ∧
    (((Ojo.Crystal.new u1 u2 u3 u4 u5 u6 u7).update L v1 v2 time amp).update L w1 w2
      time2 amp2).dist = .nan := by
  obtain ⟨a1, a2, a3, a4⟩ :=
    update_of_seedless L v1 v2 (Ojo.Crystal.new u1 u2 u3 u4 u5 u6 u7) time amp rfl
  obtain ⟨b1, b2, -, -⟩ := update_of_seedless L w1 w2 _ time2 amp2 a3
  exact ⟨a1, a2, a4, b1, b2⟩

theorem random2_range (u lo hi : ℚ) (h0 : 0 ≤ u) (h1 : u < 1) (hlh : lo < hi) :
    lo ≤ P5.random2 u lo hi ∧ P5.random2 u lo hi < hi := by
  unfold P5.random2
  constructor <;> nlinarith

theorem random1_range (u hi : ℚ) (h0 : 0 ≤ u) (h1 : u < 1) (hh : 0 < hi) :
    0 ≤ P5.random1 u hi ∧ P5.random1 u hi < hi := by
  unfold P5.random1
  constructor <;> nlinarith

/-- The respawn logic of `update` in any state: the test `dist > 500` is
false after the call; if the advanced distance is above 500, the distance is
reset to a value in [50, 150) and the hue to a value in [0, 360) in the same
call; and when the distance and the seed are numbers, the new distance is a
number of at most 500. No crystal made by the constructor has a `seed`. -/
theorem update_dist_le_threshold (L : P5.Lib) (u1 u2 : ℚ) (c : Ojo.Crystal) (time amp : ℚ)
    (h1 : 0 ≤ u1) (h1u : u1 < 1) (h2 : 0 ≤ u2) (h2u : u2 < 1) :
    (c.update L u1 u2 time amp).dist.gt Ojo.respawnThreshold = false ∧
    ((c.advancedDist L time amp).gt Ojo.respawnThreshold = true →
      ∃ r, (c.update L u1 u2 time amp).dist = .fin r ∧ 50 ≤ r ∧ r < 150 ∧
        0 ≤ (c.update L u1 u2 time amp).hue ∧ (c.update L u1 u2 time amp).hue < 360) ∧
    (∀ q s, c.dist = .fin q → c.seed = some s →
      ∃ r, (c.update L u1 u2 time amp).dist = .fin r ∧ r ≤ 500) := by
  have hr := random2_range u1 50 150 h1 h1u (by norm_num)
  have hh := random1_range u2 360 h2 h2u (by norm_num)
  refine ⟨?_, ?_, ?_⟩
  · unfold Ojo.Crystal.update
    by_cases hgt : (c.advancedDist L time amp).gt Ojo.respawnThreshold = true
    · simp only [hgt, if_true]
      simp only [Ojo.Num.gt, Ojo.respawnThreshold, decide_eq_false_iff_not, not_lt]
      linarith [hr.2]
    · simp only [hgt]
      simpa using hgt
  · intro hgt
    unfold Ojo.Crystal.update
    simp only [hgt, if_true]
    exact ⟨_, rfl, hr.1, hr.2, hh.1, hh.2⟩
  · intro q s hq hs
    unfold Ojo.Crystal.update
    by_cases hgt : (c.advancedDist L time amp).gt Ojo.respawnThreshold = true
    · simp only [hgt, if_true]
      exact ⟨_, rfl, by linarith [hr.2]⟩
    · simp only [hgt]
      have hadv : c.advancedDist L time amp =
          .fin (q + L.sin (time * 0.8 + s) * 0.8 * amp) := by
        simp [Ojo.Crystal.advancedDist, hq, hs, Ojo.Num.ofProperty, Ojo.Num.add, Ojo.Num.mul,
          Ojo.sinNum]
      rw [hadv] at hgt ⊢
      refine ⟨_, rfl, ?_⟩
      simpa [Ojo.Num.gt, Ojo.respawnThreshold] using hgt

theorem update_dist_le_threshold_witness :
    ((⟨0, 0, .fin 500, 10, 1, 0, 0, some 0⟩ : Ojo.Crystal).update ⟨fun _ => 1, fun _ => 0⟩
        (1 / 2) (1 / 2) 0 1).dist.gt Ojo.respawnThreshold = false ∧
    ∃ r, ((⟨0, 0, .fin 500, 10, 1, 0, 0, some 0⟩ : Ojo.Crystal).update ⟨fun _ => 1, fun _ => 0⟩
        (1 / 2) (1 / 2) 0 1).dist = .fin r ∧ 50 ≤ r ∧ r < 150 ∧
      0 ≤ ((⟨0, 0, .fin 500, 10, 1, 0, 0, some 0⟩ : Ojo.Crystal).update
        ⟨fun _ => 1, fun _ => 0⟩ (1 / 2) (1 / 2) 0 1).hue ∧
      ((⟨0, 0, .fin 500, 10, 1, 0, 0, some 0⟩ : Ojo.Crystal).update
        ⟨fun _ => 1, fun _ => 0⟩ (1 / 2) (1 / 2) 0 1).hue < 360 :=
  ⟨(update_dist_le_threshold ⟨fun _ => 1, fun _ => 0⟩ (1 / 2) (1 / 2)
      ⟨0, 0, .fin 500, 10, 1, 0, 0, some 0⟩ 0 1
      (by norm_num) (by norm_num) (by norm_num) (by norm_num)).1,
    (update_dist_le_threshold ⟨fun _ => 1, fun _ => 0⟩ (1 / 2) (1 / 2)
      ⟨0, 0, .fin 500, 10, 1, 0, 0, some 0⟩ 0 1
      (by norm_num) (by norm_num) (by norm_num) (by norm_num)).2.1
      (by simp [Ojo.Crystal.advancedDist, Ojo.Num.ofProperty, Ojo.Num.add, Ojo.Num.mul,
        Ojo.sinNum, Ojo.Num.gt, Ojo.respawnThreshold]; norm_num)⟩

/-- C6: for elapsed time `time ≥ 0`, any segment index, layer and `k`, and a
symmetry count of at least 1, the mandala `hue`, its `smallHue`, the eye
sketch's `segmentHue`, `eyeHue` and `pupilHue` all lie in [0, 360); and a
crystal whose hue is not negative (so any hue in [0, 360)) has its hue in
[0, 360) after `update`. -/
theorem hue_range (time : ℚ) (i layer k : ℕ) (sym : ℤ) (L : P5.Lib) (u1 u2 : ℚ)
    (c : Ojo.Crystal) (t amp : ℚ) (ht : 0 ≤ time) (hs : 1 ≤ sym)
    (h2 : 0 ≤ u2) (h2u : u2 < 1) (hc : 0 ≤ c.hue) :
    (0 ≤ Mandala.hue i sym time layer ∧ Mandala.hue i sym time layer < 360) ∧
    (0 ≤ Mandala.smallHue (Mandala.hue i sym time layer) k ∧
      Mandala.smallHue (Mandala.hue i sym time layer) k < 360) ∧
    (0 ≤ Ojo.segmentHue i sym time layer ∧ Ojo.segmentHue i sym time layer < 360) ∧
    (0 ≤ Ojo.eyeHue time ∧ Ojo.eyeHue time < 360) ∧
    (0 ≤ Ojo.pupilHue time ∧ Ojo.pupilHue time < 360) ∧
    (0 ≤ (c.update L u1 u2 t amp).hue ∧ (c.update L u1 u2 t amp).hue < 360) := by
  have hsq : (0 : ℚ) < (sym : ℚ) := by exact_mod_cast (by omega : (0 : ℤ) < sym)
  have hstep : (0 : ℚ) ≤ (i : ℚ) * (360 / (sym : ℚ)) := by positivity
  have hl : (0 : ℚ) ≤ (layer : ℚ) := Nat.cast_nonneg _
  have hk : (0 : ℚ) ≤ (k : ℚ) := Nat.cast_nonneg _
  have hm : 0 ≤ Mandala.hue i sym time layer ∧ Mandala.hue i sym time layer < 360 :=
    P5.jsRem_range _ _ (by nlinarith) (by norm_num)
  refine ⟨hm, ?_, ?_, ?_, ?_, ?_⟩
  · exact P5.jsRem_range _ _ (by nlinarith [hm.1]) (by norm_num)
  · exact P5.jsRem_range _ _ (by nlinarith) (by norm_num)
  · exact P5.jsRem_range _ _ (by nlinarith) (by norm_num)
  · exact P5.jsRem_range _ _ (by nlinarith) (by norm_num)
  · unfold Ojo.Crystal.update
    by_cases hgt : (c.advancedDist L t amp).gt Ojo.respawnThreshold = true
    · simp only [hgt, if_true]
      exact random1_range u2 360 h2 h2u (by norm_num)
    · simp only [hgt]
      exact P5.jsRem_range _ _ (by linarith) (by norm_num)

theorem hue_range_witness :
    (0 ≤ Mandala.hue 3 16 2 1 ∧ Mandala.hue 3 16 2 1 < 360) ∧
    (0 ≤ Mandala.smallHue (Mandala.hue 3 16 2 1) 4 ∧
      Mandala.smallHue (Mandala.hue 3 16 2 1) 4 < 360) ∧
    (0 ≤ Ojo.segmentHue 3 16 2 1 ∧ Ojo.segmentHue 3 16 2 1 < 360) ∧
    (0 ≤ Ojo.eyeHue 2 ∧ Ojo.eyeHue 2 < 360) ∧
    (0 ≤ Ojo.pupilHue 2 ∧ Ojo.pupilHue 2 < 360) ∧
    (0 ≤ ((⟨359, 0, .fin 500, 10, 1, 0, 0, some 0⟩ : Ojo.Crystal).update
        ⟨fun _ => 1, fun _ => 0⟩ (1 / 2) (1 / 2) 0 1).hue ∧
      ((⟨359, 0, .fin 500, 10, 1, 0, 0, some 0⟩ : Ojo.Crystal).update
        ⟨fun _ => 1, fun _ => 0⟩ (1 / 2) (1 / 2) 0 1).hue < 360) :=
  hue_range 2 3 1 4 16 ⟨fun _ => 1, fun _ => 0⟩ (1 / 2) (1 / 2)
    ⟨359, 0, .fin 500, 10, 1, 0, 0, some 0⟩ 0 1 (by norm_num) (by norm_num) (by norm_num)
    (by norm_num) (by norm_num)

/-- C8, as stated, fails: while layer 2 is drawn the scale factor is 7/10 in
the eye sketch and 119/200 in the mandala sketch, neither of which is
(17/20)^2 = 289/400. -/
theorem layer_scale_not_geometric :
    ((⟨2, 0, 2, 7 / 10, Ojo.segmentHue 0 2 0 2⟩ : Ojo.Segment) ∈ (Ojo.ringLoop 0 2).log ∧
      (7 / 10 : ℚ) ≠ (17 / 20) ^ 2) ∧
    ((⟨2, 0, 16, 119 / 200, 210, Mandala.hue 0 16 0 2,
        (List.range 5).map (Mandala.smallHue (Mandala.hue 0 16 0 2)),
        119 / 200 * (0.15 * 1)⟩ : Mandala.Segment) ∈ (Mandala.mainLoop 0 1 16).log ∧
      (119 / 200 : ℚ) ≠ (17 / 20) ^ 2) := by
  refine ⟨⟨?_, by norm_num⟩, ?_, by norm_num⟩
  · rw [ojo_ringLoop_log]
    refine List.mem_append_right _ (List.mem_map.2 ⟨0, by simp, rfl⟩)
  · rw [mandala_mainLoop_log]
    refine List.mem_append_right _ (List.mem_map.2 ⟨0, by simp, rfl⟩)

/-- C8, amended: the scale factor in effect while layer `L` is drawn is
`1 - 0.15 * L` in the eye sketch (1, 17/20, 7/10) and the running product of
these factors in the mandala sketch (1, 17/20, 119/200). -/
theorem layer_scale (time amp : ℚ) (sym : ℤ) (mseg : Mandala.Segment) (oseg : Ojo.Segment) :
    (mseg ∈ (Mandala.mainLoop time amp sym).log →
      (mseg.layer = 0 ∧ mseg.scl = 1) ∨ (mseg.layer = 1 ∧ mseg.scl = 1 * (1 - 1 * 0.15)) ∨
        (mseg.layer = 2 ∧ mseg.scl = 1 * (1 - 1 * 0.15) * (1 - 2 * 0.15))) ∧
    (oseg ∈ (Ojo.ringLoop time sym).log →
      (oseg.layer = 0 ∧ oseg.scl = 1) ∨ (oseg.layer = 1 ∧ oseg.scl = 1 - 1 * 0.15) ∨
        (oseg.layer = 2 ∧ oseg.scl = 1 - 2 * 0.15)) := by
  constructor
  · intro h
    rcases (mandala_mainLoop_spec time amp sym mseg h).2.2.2.2 with h | h | h
    · exact Or.inl h
    · exact Or.inr (Or.inl ⟨h.1, by rw [h.2]; norm_num⟩)
    · exact Or.inr (Or.inr ⟨h.1, by rw [h.2]; norm_num⟩)
  · intro h
    rcases (ojo_ringLoop_spec time sym oseg h).2.2.2 with h | h | h
    · exact Or.inl h
    · exact Or.inr (Or.inl ⟨h.1, by rw [h.2]; norm_num⟩)
    · exact Or.inr (Or.inr ⟨h.1, by rw [h.2]; norm_num⟩)

theorem layer_scale_witness :
    ((2 = 0 ∧ (119 / 200 : ℚ) = 1) ∨ (2 = 1 ∧ (119 / 200 : ℚ) = 1 * (1 - 1 * 0.15)) ∨
      (2 = 2 ∧ (119 / 200 : ℚ) = 1 * (1 - 1 * 0.15) * (1 - 2 * 0.15))) ∧
    ((2 = 0 ∧ (7 / 10 : ℚ) = 1) ∨ (2 = 1 ∧ (7 / 10 : ℚ) = 1 - 1 * 0.15) ∨
      (2 = 2 ∧ (7 / 10 : ℚ) = 1 - 2 * 0.15)) :=
  ⟨(layer_scale 0 1 16
      ⟨2, 0, 16, 119 / 200, 210, Mandala.hue 0 16 0 2,
        (List.range 5).map (Mandala.smallHue (Mandala.hue 0 16 0 2)), 119 / 200 * (0.15 * 1)⟩
      ⟨2, 0, 16, 7 / 10, Ojo.segmentHue 0 16 0 2⟩).1
      (by rw [mandala_mainLoop_log]
          exact List.mem_append_right _ (List.mem_map.2 ⟨0, by simp, rfl⟩)),
    (layer_scale 0 1 16
      ⟨2, 0, 16, 119 / 200, 210, Mandala.hue 0 16 0 2,
        (List.range 5).map (Mandala.smallHue (Mandala.hue 0 16 0 2)), 119 / 200 * (0.15 * 1)⟩
      ⟨2, 0, 16, 7 / 10, Ojo.segmentHue 0 16 0 2⟩).2
      (by rw [ojo_ringLoop_log]
          exact List.mem_append_right _ (List.mem_map.2 ⟨0, by simp, rfl⟩))⟩

/-- C10: in one `draw()` call of either sketch, every evaluation of
`360 / effectiveSymmetry` (mandala) and of `360 / symmetry` (eye) is made in
a pass of the radial loop whose index is below the symmetry count, with the
symmetry count of the frame as divisor, and that divisor is at least 1 (at
least 16 in the mandala sketch). -/
theorem radial_divisor_pos (L : P5.Lib) (time d width : ℚ) (mseg : Mandala.Segment)
    (oseg : Ojo.Segment) :
    (mseg ∈ (Mandala.draw L time d width).log →
      mseg.divisor = Mandala.effectiveSymmetry (L.noise (time * 0.05 + 1000))
        (Mandala.amplificationFactor d width) ∧
      (mseg.i : ℤ) < mseg.divisor ∧ 16 ≤ mseg.divisor) ∧
    (oseg ∈ (Ojo.draw L time d width).log →
      oseg.divisor = Ojo.symmetry (Ojo.amplificationFactor d width) (Ojo.parpadeo L time) ∧
      (oseg.i : ℤ) < oseg.divisor ∧ 1 ≤ oseg.divisor) := by
  constructor
  · intro h
    obtain ⟨hd, hi, -⟩ := mandala_mainLoop_spec _ _ _ mseg h
    refine ⟨hd, hd ▸ hi, ?_⟩
    rw [hd]
    unfold Mandala.effectiveSymmetry
    exact (constrain_range _ 16 60 (by norm_num)).1
  · intro h
    obtain ⟨hd, hi, -⟩ := ojo_ringLoop_spec _ _ oseg h
    have hi2 : (oseg.i : ℤ) < oseg.divisor := hd ▸ hi
    exact ⟨hd, hi2, by omega⟩

theorem mandala_draw_sample :
    Mandala.draw ⟨fun _ => 0, fun _ => 0⟩ 0 400 800 = Mandala.mainLoop 0 1 16 := by
  have ha : Mandala.amplificationFactor 400 800 = 1 := by
    unfold Mandala.amplificationFactor P5.map; norm_num
  have hs : Mandala.effectiveSymmetry 0 1 = 16 := by
    unfold Mandala.effectiveSymmetry
    rw [baseSymmetry_one]
    norm_num [P5.constrain]
  unfold Mandala.draw
  simp only [ha, hs]

theorem ojo_draw_sample :
    Ojo.draw ⟨fun _ => 0, fun _ => 0⟩ 0 400 800 = Ojo.ringLoop 0 36 := by
  have hs : Ojo.symmetry (Ojo.amplificationFactor 400 800)
      (Ojo.parpadeo ⟨fun _ => 0, fun _ => 0⟩ 0) = 36 := by
    unfold Ojo.symmetry Ojo.amplificationFactor Ojo.parpadeo P5.map P5.floor
    norm_num
  unfold Ojo.draw
  simp only [hs]

theorem radial_divisor_pos_witness :
    ((16 : ℤ) = Mandala.effectiveSymmetry
        ((⟨fun _ => 0, fun _ => 0⟩ : P5.Lib).noise (0 * 0.05 + 1000))
        (Mandala.amplificationFactor 400 800) ∧
      ((0 : ℕ) : ℤ) < 16 ∧ (16 : ℤ) ≤ 16) ∧
    ((36 : ℤ) = Ojo.symmetry (Ojo.amplificationFactor 400 800)
        (Ojo.parpadeo ⟨fun _ => 0, fun _ => 0⟩ 0) ∧
      ((35 : ℕ) : ℤ) < 36 ∧ (1 : ℤ) ≤ 36) :=
  ⟨(radial_divisor_pos ⟨fun _ => 0, fun _ => 0⟩ 0 400 800
      ⟨0, 0, 16, 1, 300, Mandala.hue 0 16 0 0,
        (List.range 5).map (Mandala.smallHue (Mandala.hue 0 16 0 0)), 1 * (0.15 * 1)⟩
      ⟨2, 35, 36, 7 / 10, Ojo.segmentHue 35 36 0 2⟩).1
      (by rw [mandala_draw_sample, mandala_mainLoop_log]
          exact List.mem_append_left _ (List.mem_append_left _
            (List.mem_map.2 ⟨0, by simp, rfl⟩))),
    (radial_divisor_pos ⟨fun _ => 0, fun _ => 0⟩ 0 400 800
      ⟨0, 0, 16, 1, 300, Mandala.hue 0 16 0 0,
        (List.range 5).map (Mandala.smallHue (Mandala.hue 0 16 0 0)), 1 * (0.15 * 1)⟩
      ⟨2, 35, 36, 7 / 10, Ojo.segmentHue 35 36 0 2⟩).2
      (by rw [ojo_draw_sample, ojo_ringLoop_log]
          exact List.mem_append_right _ (List.mem_map.2 ⟨35, by simp, rfl⟩))⟩

/-- C9: without the Media Session API the script raises no error and its only
effect is the console warning; with it, the script registers handlers for
exactly `play`, `pause`, `previoustrack` and `nexttrack`, and a handler whose
global callback is not a function does nothing. -/
theorem script_spec (h : MediaSession.Host) :
    (h.hasMediaSession = false →
      MediaSession.script h = .ok [.consoleWarn MediaSession.warning]) ∧
    (h.hasMediaSession = true →
      MediaSession.script h = .ok [.setActionHandler "play" .onPlay,
        .setActionHandler "pause" .onPause,
        .setActionHandler "previoustrack" .onPreviousTrack,
        .setActionHandler "nexttrack" .onNextTrack, .defineUpdateMediaSession] ∧
      MediaSession.registeredActions [.setActionHandler "play" .onPlay,
        .setActionHandler "pause" .onPause,
        .setActionHandler "previoustrack" .onPreviousTrack,
        .setActionHandler "nexttrack" .onNextTrack, .defineUpdateMediaSession] =
          ["play", "pause", "previoustrack", "nexttrack"]) ∧
    (h.togglePlayPauseIsFunction = false →
      MediaSession.Callback.run h .onPlay = [] ∧ MediaSession.Callback.run h .onPause = []) ∧
    (h.handlePlaybackIsFunction = false →
      MediaSession.Callback.run h .onPreviousTrack = [] ∧
      MediaSession.Callback.run h .onNextTrack = []) := by
  refine ⟨?_, ?_, ?_, ?_⟩
  · intro hm
    simp [MediaSession.script, hm]
    rfl
  · intro hm
    refine ⟨?_, rfl⟩
    simp [MediaSession.script, MediaSession.setActionHandler, hm]
    rfl
  · intro ht
    simp [MediaSession.Callback.run, ht]
  · intro hp
    simp [MediaSession.Callback.run, hp]

theorem script_spec_witness :
    MediaSession.script ⟨false, false, false⟩ =
      .ok [.consoleWarn MediaSession.warning] ∧
    MediaSession.script ⟨true, false, false⟩ = .ok [.setActionHandler "play" .onPlay,
        .setActionHandler "pause" .onPause,
        .setActionHandler "previoustrack" .onPreviousTrack,
        .setActionHandler "nexttrack" .onNextTrack, .defineUpdateMediaSession] ∧
    MediaSession.Callback.run ⟨true, false, false⟩ .onPlay = [] ∧
    MediaSession.Callback.run ⟨true, false, false⟩ .onNextTrack = [] :=
  ⟨(script_spec ⟨false, false, false⟩).1 rfl,
    ((script_spec ⟨true, false, false⟩).2.1 rfl).1,
    ((script_spec ⟨true, false, false⟩).2.2.1 rfl).1,
    ((script_spec ⟨true, false, false⟩).2.2.2 rfl).2⟩
